import Mathlib

/-!
# Step-size control and worldtube buffer ranges

A shallow embedding of

* `src/Time/Actions/ChangeStepSize.hpp`: the function `change_step_size` and the
  iterable action `Actions::ChangeStepSize::apply`;
* `src/Evolution/Systems/Cce/WorldtubeBufferUpdater.hpp`: the two inline
  `time_is_outside_range` overrides.

In `ChangeStepSize.hpp` a C++ `double` is embedded as an exact rational:
rounding, infinities and NaN are not represented there, and the statements use
the order of the values, not the rounding of any operation.  The two
`time_is_outside_range` overrides only compare their `double` arguments; for them
a `double` is a `Binary64`, with the infinities and NaN and the comparisons of
IEEE 754.
-/

namespace Spectre

/-- A C++ `double`, embedded as an exact rational number. -/
abbrev Double := ℚ

/-! ## WorldtubeBufferUpdater.hpp -/

/-- A C++ `double` as far as its comparisons go: a finite value (both zeros are
the rational 0), an infinity, or a NaN. -/
inductive Binary64 where
  | finite (value : ℚ)
  | pos_inf
  | neg_inf
  | nan
  deriving DecidableEq, Repr

namespace Binary64

/-- The operator `a < b` on `double`: false as soon as an operand is a NaN. -/
def lt : Binary64 → Binary64 → Bool
  | finite a, finite b => decide (a < b)
  | finite _, pos_inf => true
  | finite _, neg_inf => false
  | pos_inf, finite _ => false
  | pos_inf, pos_inf => false
  | pos_inf, neg_inf => false
  | neg_inf, finite _ => true
  | neg_inf, pos_inf => true
  | neg_inf, neg_inf => false
  | nan, _ => false
  | _, nan => false

/-- The operator `a > b` on `double`. -/
def gt (a b : Binary64) : Bool := lt b a

/-- The operator `a <= b` on `double`: false as soon as an operand is a NaN. -/
def le : Binary64 → Binary64 → Bool
  | finite a, finite b => decide (a ≤ b)
  | finite _, pos_inf => true
  | finite _, neg_inf => false
  | pos_inf, finite _ => false
  | pos_inf, pos_inf => true
  | pos_inf, neg_inf => false
  | neg_inf, finite _ => true
  | neg_inf, pos_inf => true
  | neg_inf, neg_inf => true
  | nan, _ => false
  | _, nan => false

end Binary64

namespace BondiWorldtubeH5BufferUpdater

/-- The override `BondiWorldtubeH5BufferUpdater::time_is_outside_range` (lines 311-314).
`time_buffer_` is the member `DataVector`, a vector of `double`; an index outside
the vector gives `none`.  For an empty vector the C++ index `size() - 1` wraps to
the largest `size_t` and is outside the vector; here the truncated subtraction
gives index `0`, which is outside the empty vector as well. -/
def time_is_outside_range (time_buffer_ : List Binary64) (time : Binary64) : Option Bool := do
  let first ← time_buffer_[0]?
  let last ← time_buffer_[time_buffer_.length - 1]?
  pure (Binary64.lt time first || Binary64.gt time last)

end BondiWorldtubeH5BufferUpdater

namespace KleinGordonWorldtubeH5BufferUpdater

/-- The override `KleinGordonWorldtubeH5BufferUpdater::time_is_outside_range` (lines 404-407),
with the same conventions as the Bondi override. -/
def time_is_outside_range (time_buffer_ : List Binary64) (time : Binary64) : Option Bool := do
  let first ← time_buffer_[0]?
  let last ← time_buffer_[time_buffer_.length - 1]?
  pure (Binary64.lt time first || Binary64.gt time last)

end KleinGordonWorldtubeH5BufferUpdater

/-! ## ChangeStepSize.hpp: machine arithmetic -/

/-- Reduction of a mathematical integer to the value of a 32-bit two's
complement `int`. -/
def wrap_int32 (z : Int) : Int := (z + 2 ^ 31) % 2 ^ 32 - 2 ^ 31

/-- The expression `a << k` on 32-bit `int` operands: the unique value congruent
to `a * 2 ^ k` modulo `2 ^ 32`. -/
def shl_int32 (a : Int) (k : Nat) : Int := wrap_int32 (a * 2 ^ k)

/-- The constant of line 151:
`constexpr double smallest_relative_step_size = 1.0 / (1 << 31);`
The literals `1` and `31` are `int`, so the shift is a 32-bit `int` shift whose
result is then converted to `double`. -/
def smallest_relative_step_size : Double := 1 / ((shl_int32 1 31 : Int) : ℚ)

/-- The function `std::popcount` on a `size_t`: the number of set bits among the low 64. -/
def popcount (n : Nat) : Nat := (List.range 64).countP (fun i => n.testBit i)

/-! ## ChangeStepSize.hpp: data model -/

/-- The types used by `change_step_size` that are declared in headers outside the
sources (`Time/Time.hpp`, `Time/Slab.hpp`, `Time/TimeStepId.hpp`, the time
steppers, the step choosers, `Time/TimeStepRequestProcessor.hpp`).  They are
parameters of the embedding.  `Other` stands for all DataBox items that the
header never names. -/
structure Types where
  Slab : Type
  Time : Type
  TimeDelta : Type
  TimeStepId : Type
  LtsTimeStepper : Type
  History : Type
  StepChooser : Type
  TimeStepRequestProcessor : Type
  Other : Type

/-- Modelled from the spec: the aggregate `TimeStepRequest` of
`Time/TimeStepRequest.hpp`, which is not among the sources.  Line 111 builds it
with the designated initializer `.size_goal = ...`; every member is a
`std::optional<double>` that is empty unless set. -/
structure TimeStepRequest where
  size_goal : Option Double := none
  size : Option Double := none
  end_ : Option Double := none
  size_hard_limit : Option Double := none
  end_hard_limit : Option Double := none
  deriving DecidableEq, Repr

/-- Modelled from the spec: the counters of `AdaptiveSteppingDiagnostics`
(`Time/AdaptiveSteppingDiagnostics.hpp`, not among the sources).  Lines 260-270
name two of them; the counters are unbounded naturals here. -/
structure AdaptiveSteppingDiagnostics where
  number_of_slabs : Nat
  number_of_slab_size_changes : Nat
  number_of_steps : Nat
  number_of_step_fraction_changes : Nat
  number_of_step_rejections : Nat
  deriving DecidableEq, Repr

/-- The items of the `db::DataBox` that the header reads or writes, one field per
tag, and `other` for the rest of the box.
`fixed_lts_ratio` is `none` when `Tags::FixedLtsRatio` is not retrievable from the
box (the `if constexpr` of line 101) and `some v` when it is, `v` being the
`std::optional<size_t>` it holds.  `histories` lists the values of
`Tags::get_all_history_tags<DbTags>` in order. -/
structure DataBox (T : Types) where
  time_stepper : T.LtsTimeStepper
  step_choosers : List T.StepChooser
  time_step_id : T.TimeStepId
  histories : List T.History
  time_step : T.TimeDelta
  fixed_lts_ratio : Option (Option Nat)
  minimum_time_step : Double
  next_time_step : T.TimeDelta
  next_time_step_id : T.TimeStepId
  adaptive_stepping_diagnostics : AdaptiveSteppingDiagnostics
  other : T.Other

/-- The functions called by the header that are defined outside the sources.  A
result of type `Option` is `none` when the callee terminates the program instead
of returning.  `assertions` tells whether `ASSERT` is compiled in.
`error_on_hard_limit` is `true` when the call returns and `false` when it
raises its error. -/
structure Env (T : Types) where
  assertions : Bool
  substep : T.TimeStepId → Nat
  time_runs_forward : T.TimeStepId → Bool
  step_time : T.TimeStepId → T.Time
  time_value : T.Time → Double
  delta_value : T.TimeDelta → Double
  delta_slab : T.TimeDelta → T.Slab
  slab_duration : T.Slab → T.TimeDelta
  delta_div : T.TimeDelta → Nat → T.TimeDelta
  time_plus : T.Time → T.TimeDelta → T.Time
  delta_ne : T.TimeDelta → T.TimeDelta → Bool
  can_change_step_size : T.LtsTimeStepper → T.TimeStepId → T.History → Option Bool
  next_time_id : T.LtsTimeStepper → T.TimeStepId → T.TimeDelta → Option T.TimeStepId
  desired_step : T.StepChooser → Double → DataBox T → Option (TimeStepRequest × Bool)
  processor : Bool → T.TimeStepRequestProcessor
  process : T.TimeStepRequestProcessor → TimeStepRequest → Option T.TimeStepRequestProcessor
  step_size : T.TimeStepRequestProcessor → Double → Double → Option Double
  error_on_hard_limit : T.TimeStepRequestProcessor → Double → Double → Bool
  choose_lts_step_size : T.Time → Double → Option T.TimeDelta

/-- The ways in which `change_step_size` stops without returning. -/
inductive Error where
  /-- The `ASSERT(time_step_id.substep() == 0, ...)` of line 83 -/
  | assert_substep
  /-- The `ASSERT(std::popcount(*fixed_lts_ratio) == 1, ...)` of line 109 -/
  | assert_fixed_lts_ratio
  /-- The error of `step_requests.error_on_hard_limit`, lines 126 and 189 -/
  | hard_limit
  /-- The `ERROR_NO_TRACE` of line 138: desired step below `MinimumTimeStep` -/
  | minimum_desired
  /-- The `ERROR_NO_TRACE` of line 154: not representable without integer overflow -/
  | overflow
  /-- The `ERROR_NO_TRACE` of line 168: chosen step below `MinimumTimeStep` -/
  | minimum_chosen
  /-- The `ASSERT(*time_step != current_step, ...)` of line 199 -/
  | assert_not_changed
  /-- A callee defined outside the sources did not return -/
  | callee
  deriving DecidableEq, Repr

/-- The value of a call that may not return. -/
def returned {α : Type} (e : Error) : Option α → Except Error α
  | some a => .ok a
  | none => .error e

/-- The macro `ASSERT(cond, msg)`: checked only when assertions are compiled in. -/
def ASSERT (assertions cond : Bool) (e : Error) : Except Error Unit :=
  if assertions && !cond then .error e else .ok ()

/-! ## ChangeStepSize.hpp: `change_step_size` -/

/-- The `tmpl::for_each<history_tags>` of lines 86-96, started with
`can_change_step_size = acc`. -/
def history_loop {T : Types} (E : Env T) (time_stepper : T.LtsTimeStepper)
    (time_step_id : T.TimeStepId) : List T.History → Bool → Option Bool
  | [], acc => some acc
  | history :: rest, acc =>
    if !acc then history_loop E time_stepper time_step_id rest acc
    else
      match E.can_change_step_size time_stepper time_step_id history with
      | none => none
      | some r => history_loop E time_stepper time_step_id rest r

/-- The range-for of lines 116-122 over the remaining step choosers, started
with the processor `step_requests` and `step_accepted = acc`. -/
def step_chooser_loop {T : Types} (E : Env T) (box : DataBox T) (last_step_size : Double) :
    List T.StepChooser → T.TimeStepRequestProcessor → Bool →
      Option (T.TimeStepRequestProcessor × Bool)
  | [], step_requests, acc => some (step_requests, acc)
  | step_chooser :: rest, step_requests, acc =>
    match E.desired_step step_chooser last_step_size box with
    | none => none
    | some (step_request, step_choice_accepted) =>
      match E.process step_requests step_request with
      | none => none
      | some step_requests1 =>
        step_chooser_loop E box last_step_size rest step_requests1
          (acc && step_choice_accepted)

/-- Lines 100-123: the processor after all requests and the flag `step_accepted`. -/
def gather_requests {T : Types} (E : Env T) (box : DataBox T) :
    Except Error (T.TimeStepRequestProcessor × Bool) :=
  let current_step := box.time_step
  let fixed_lts_ratio : Option Nat := box.fixed_lts_ratio.join
  let step_requests := E.processor (E.time_runs_forward box.time_step_id)
  match fixed_lts_ratio with
  | some ratio => do
    ASSERT E.assertions (popcount ratio == 1) .assert_fixed_lts_ratio
    let step_requests1 ← returned .callee
      (E.process step_requests
        { size_goal := some (E.delta_value
            (E.delta_div (E.slab_duration (E.delta_slab current_step)) ratio)) })
    pure (step_requests1, true)
  | none =>
    returned .callee
      (step_chooser_loop E box (E.delta_value current_step) box.step_choosers step_requests true)

/-- The call `step_requests.error_on_hard_limit(current_step.value(),
(time_step_id.step_time() + current_step).value())`, lines 126-128 and 189-191. -/
def check_hard_limit {T : Types} (E : Env T) (box : DataBox T)
    (step_requests : T.TimeStepRequestProcessor) : Except Error Unit :=
  if E.error_on_hard_limit step_requests (E.delta_value box.time_step)
      (E.time_value (E.time_plus (E.step_time box.time_step_id) box.time_step))
  then .ok () else .error .hard_limit

/-- Lines 132-209: what `change_step_size` does once the stepper allows a change,
given the processor and the flag left by lines 100-123. -/
def adjust_step {T : Types} (E : Env T) (box : DataBox T)
    (step_requests : T.TimeStepRequestProcessor) (step_accepted : Bool) :
    Except Error (DataBox T × Bool) := do
  let time_step_id := box.time_step_id
  let current_step := box.time_step
  let desired_step ← returned .callee
    (E.step_size step_requests (E.time_value (E.step_time time_step_id))
      (E.delta_value current_step))
  if |desired_step| < box.minimum_time_step then
    throw .minimum_desired
  if |desired_step / E.delta_value (E.slab_duration (E.delta_slab current_step))| <
      smallest_relative_step_size then
    throw .overflow
  let new_step ← returned .callee
    (E.choose_lts_step_size (E.time_plus (E.step_time time_step_id) current_step) desired_step)
  if |E.delta_value new_step| < box.minimum_time_step then
    throw .minimum_chosen
  let box1 := { box with next_time_step := new_step }
  if step_accepted then
    check_hard_limit E box step_requests
    pure (box1, true)
  else
    let time_step ← returned .callee
      (E.choose_lts_step_size (E.step_time time_step_id) desired_step)
    ASSERT E.assertions (E.delta_ne time_step current_step) .assert_not_changed
    let local_next_time_id ← returned .callee
      (E.next_time_id box.time_stepper time_step_id time_step)
    pure ({ box1 with time_step := time_step, next_time_step_id := local_next_time_id }, false)

/-- The function `change_step_size` (lines 76-210): the final DataBox and the
returned `bool`, or the error that stopped it. -/
def change_step_size {T : Types} (E : Env T) (box : DataBox T) :
    Except Error (DataBox T × Bool) := do
  ASSERT E.assertions (E.substep box.time_step_id == 0) .assert_substep
  let can_change_step_size ← returned .callee
    (history_loop E box.time_stepper box.time_step_id box.histories true)
  let (step_requests, step_accepted) ← gather_requests E box
  if !can_change_step_size then
    check_hard_limit E box step_requests
    pure (box, true)
  else
    adjust_step E box step_requests step_accepted

/-! ## ChangeStepSize.hpp: the action -/

/-- Modelled from the spec: the enumeration `Parallel::AlgorithmExecution` of
`Parallel/AlgorithmExecution.hpp`, which is not among the sources. -/
inductive AlgorithmExecution where
  | Continue
  | Retry
  | Pause
  | Halt
  deriving DecidableEq, Repr

/-- An entry of the `ActionList` type list: an instantiation of `Actions::UpdateU`
or some other action. -/
inductive Action where
  | UpdateU
  | another (id : Nat)
  deriving DecidableEq, Repr

/-- The test `tt::is_a<Actions::UpdateU, tmpl::_1>`. -/
def is_UpdateU : Action → Bool
  | .UpdateU => true
  | .another _ => false

/-- An `ActionList` accepted by the `static_assert` of lines 248-254. -/
structure ActionList where
  actions : List Action
  has_UpdateU : actions.any is_UpdateU = true

/-- The value `tmpl::index_if<ActionList, tt::is_a<Actions::UpdateU, tmpl::_1>>::value`:
the index of the first entry that is an `UpdateU`. -/
def index_of_UpdateU (action_list : ActionList) : Nat :=
  action_list.actions.findIdx is_UpdateU

/-- The action `Actions::ChangeStepSize::apply` (lines 243-277): the DataBox after the
call and the returned `iterable_action_return_t`. -/
def apply {T : Types} (E : Env T) (action_list : ActionList) (box : DataBox T) :
    Except Error (DataBox T × AlgorithmExecution × Option Nat) :=
  if E.substep box.time_step_id != 0 then
    .ok (box, .Continue, none)
  else
    match change_step_size E box with
    | .error e => .error e
    | .ok (box1, step_successful) =>
      if step_successful then
        .ok (box1, .Continue, none)
      else
        let diags := box1.adaptive_stepping_diagnostics
        .ok ({ box1 with adaptive_stepping_diagnostics :=
                { diags with number_of_step_rejections := diags.number_of_step_rejections + 1 } },
             .Continue, some (index_of_UpdateU action_list))

/-! ## A concrete environment

A small instance of the parameters, used to evaluate the embedding on concrete
DataBoxes: a slab is an interval, a time and a step are fractions of a slab, a
step chooser returns a fixed request and a fixed accepted flag, the request
processor keeps the smallest `size_goal` it has seen and its step size is that
goal (the current step when there is none), and a step is chosen as the
largest `1 / 2 ^ k` fraction of the slab not above the desired one. -/

namespace Sample

structure Slab where
  start : Double
  stop : Double
  deriving DecidableEq

structure Time where
  slab : Slab
  fraction : ℚ
  deriving DecidableEq

structure TimeDelta where
  slab : Slab
  fraction : ℚ
  deriving DecidableEq

structure TimeStepId where
  time_runs_forward : Bool
  step_time : Time
  substep : Nat
  deriving DecidableEq

/-- The carrier types of the concrete environment. -/
def types : Types where
  Slab := Slab
  Time := Time
  TimeDelta := TimeDelta
  TimeStepId := TimeStepId
  LtsTimeStepper := Unit
  History := Bool
  StepChooser := TimeStepRequest × Bool
  TimeStepRequestProcessor := Option Double
  Other := Unit

/-- The request processor after one more request: it keeps the smallest
`size_goal` seen so far. -/
def process (smallest : Option Double) (request : TimeStepRequest) : Option Double :=
  match request.size_goal, smallest with
  | none, _ => smallest
  | some g, none => some g
  | some g, some m => some (min g m)

/-- The first `k` at or after `k0`, among `fuel` candidates, for which the
`1 / 2 ^ k` fraction of a slab of length `duration` is not above `desired_step`. -/
def first_power (duration desired_step : Double) : Nat → Nat → Option Nat
  | 0, _ => none
  | fuel + 1, k0 =>
    if duration / 2 ^ k0 ≤ desired_step then some k0
    else first_power duration desired_step fuel (k0 + 1)

/-- The largest `1 / 2 ^ k` fraction of the slab of `time`, `k < 64`, that is not
above `desired_step`; no result when there is none. -/
def choose (time : Time) (desired_step : Double) : Option TimeDelta :=
  match first_power (time.slab.stop - time.slab.start) desired_step 64 0 with
  | some k => some { slab := time.slab, fraction := 1 / 2 ^ k }
  | none => none

/-- The operations of the concrete environment, with assertions compiled in. -/
def env : Env types where
  assertions := true
  substep := fun (id : TimeStepId) => id.substep
  time_runs_forward := fun (id : TimeStepId) => id.time_runs_forward
  step_time := fun (id : TimeStepId) => id.step_time
  time_value := fun (t : Time) => t.slab.start + (t.slab.stop - t.slab.start) * t.fraction
  delta_value := fun (d : TimeDelta) => (d.slab.stop - d.slab.start) * d.fraction
  delta_slab := fun (d : TimeDelta) => d.slab
  slab_duration := fun (s : Slab) => ({ slab := s, fraction := 1 } : TimeDelta)
  delta_div := fun (d : TimeDelta) n => ({ d with fraction := d.fraction / n } : TimeDelta)
  time_plus := fun (t : Time) (d : TimeDelta) =>
    ({ t with fraction := t.fraction + d.fraction } : Time)
  delta_ne := fun (a b : TimeDelta) => decide (a ≠ b)
  can_change_step_size := fun _ _ (h : Bool) => some h
  next_time_id := fun _ (id : TimeStepId) (d : TimeDelta) =>
    some ({ id with step_time := { id.step_time with
      fraction := id.step_time.fraction + d.fraction } } : TimeStepId)
  desired_step := fun (c : TimeStepRequest × Bool) _ _ => some c
  processor := fun _ => (none : Option Double)
  process := fun (p : Option Double) r => some (process p r)
  step_size := fun (p : Option Double) _ default_step => some (p.getD default_step)
  error_on_hard_limit := fun _ _ _ => true
  choose_lts_step_size := choose

/-- The slab from 0 to 1. -/
def unit_slab : Slab := { start := 0, stop := 1 }

/-- A DataBox at the start of the unit slab, at substep `substep`, with a current
and a next step of a quarter slab, `MinimumTimeStep` equal to `minimum`, one
history with which the stepper allows a change of step when `can_change` is
true, the given step choosers and the given `Tags::FixedLtsRatio` item. -/
def box (substep : Nat) (can_change : Bool) (minimum : Double)
    (step_choosers : List (TimeStepRequest × Bool)) (fixed_lts_ratio : Option (Option Nat)) :
    DataBox types where
  time_stepper := ()
  step_choosers := step_choosers
  time_step_id :=
    ({ time_runs_forward := true, step_time := { slab := unit_slab, fraction := 0 },
       substep := substep } : TimeStepId)
  histories := [can_change]
  time_step := ({ slab := unit_slab, fraction := 1 / 4 } : TimeDelta)
  fixed_lts_ratio := fixed_lts_ratio
  minimum_time_step := minimum
  next_time_step := ({ slab := unit_slab, fraction := 1 / 4 } : TimeDelta)
  next_time_step_id :=
    ({ time_runs_forward := true, step_time := { slab := unit_slab, fraction := 1 / 4 },
       substep := 0 } : TimeStepId)
  adaptive_stepping_diagnostics :=
    { number_of_slabs := 3, number_of_slab_size_changes := 0, number_of_steps := 12,
      number_of_step_fraction_changes := 2, number_of_step_rejections := 1 }
  other := ()

/-- A step chooser asking for the step size `goal` and accepting or rejecting the
step just taken. -/
def chooser (goal : Double) (accepted : Bool) : TimeStepRequest × Bool :=
  ({ size_goal := some goal }, accepted)

/-- A step of `1 / 2 ^ k` of the unit slab. -/
def step (k : Nat) : TimeDelta := { slab := unit_slab, fraction := 1 / 2 ^ k }

/-- Two step choosers ask for a half and an eighth of the slab; the second one
rejects the step just taken. -/
def rejecting_box : DataBox types :=
  box 0 true (1 / 1024) [chooser (1 / 2) true, chooser (1 / 8) false] none

/-- Two step choosers ask for a half and an eighth of the slab; both accept. -/
def accepting_box : DataBox types :=
  box 0 true (1 / 1024) [chooser (1 / 2) true, chooser (1 / 8) true] none

/-- The item `Tags::FixedLtsRatio` holds 2; the only step chooser would reject. -/
def fixed_box : DataBox types :=
  box 0 true (1 / 1024) [chooser (1 / 8) false] (some (some 2))

/-- The only step chooser asks for `2 ^ -32` of the unit slab, which is above the
`MinimumTimeStep` of `2 ^ -40`. -/
def tiny_box : DataBox types :=
  box 0 true (1 / 2 ^ 40) [chooser (1 / 2 ^ 32) true] none

/-- The box `rejecting_box`, on substep 1. -/
def substep_box : DataBox types :=
  box 1 true (1 / 1024) [chooser (1 / 2) true, chooser (1 / 8) false] none

/-- The step identifier at fraction `1 / 2 ^ k` of the unit slab, substep 0. -/
def id_at (k : Nat) : TimeStepId :=
  { time_runs_forward := true, step_time := { slab := unit_slab, fraction := 1 / 2 ^ k },
    substep := 0 }

/-- An action list with one `UpdateU`, at index 2. -/
def action_list : ActionList where
  actions := [.another 0, .another 1, .UpdateU, .another 2, .UpdateU]
  has_UpdateU := by decide

end Sample

/-! ## Lemmas on the embedding -/

theorem smallest_relative_step_size_eq : smallest_relative_step_size = -(1 / 2 ^ 31) := by
  norm_num [smallest_relative_step_size, shl_int32, wrap_int32]

theorem smallest_relative_step_size_neg : smallest_relative_step_size < 0 := by
  rw [smallest_relative_step_size_eq]; norm_num

theorem not_abs_lt_smallest (x : Double) : ¬ (|x| < smallest_relative_step_size) := by
  intro h
  have h0 : (0 : ℚ) ≤ |x| := abs_nonneg x
  have h1 := smallest_relative_step_size_neg
  linarith

theorem history_loop_all_true {T : Types} (E : Env T) (s : T.LtsTimeStepper) (id : T.TimeStepId)
    (hs : List T.History) (hall : ∀ h ∈ hs, E.can_change_step_size s id h = some true) :
    history_loop E s id hs true = some true := by
  induction hs with
  | nil => rfl
  | cons h t ih =>
    have h1 := hall h (List.mem_cons_self h t)
    have h2 := ih (fun x hx => hall x (List.mem_cons_of_mem h hx))
    simp [history_loop, h1, h2]

theorem step_chooser_loop_flags {T : Types} (E : Env T) (box : DataBox T) (last : Double)
    (cs : List T.StepChooser) :
    ∀ (p p' : T.TimeStepRequestProcessor) (acc b : Bool),
      step_chooser_loop E box last cs p acc = some (p', b) →
      ∃ results : List (TimeStepRequest × Bool),
        List.Forall₂ (fun c r => E.desired_step c last box = some r) cs results ∧
        b = (acc && results.all (fun r => r.2)) := by
  induction cs with
  | nil =>
    intro p p' acc b h
    simp [step_chooser_loop] at h
    exact ⟨[], List.Forall₂.nil, by simp [h.2]⟩
  | cons c t ih =>
    intro p p' acc b h
    simp only [step_chooser_loop] at h
    split at h
    · cases h
    · rename_i req ok hreq
      split at h
      · cases h
      · rename_i p1 hp1
        obtain ⟨results, hf, hb⟩ := ih p1 p' (acc && ok) b h
        refine ⟨(req, ok) :: results, List.Forall₂.cons hreq hf, ?_⟩
        simp [hb, Bool.and_assoc]

theorem change_step_size_inv {T : Types} (E : Env T) (box box' : DataBox T) (b : Bool)
    (h : change_step_size E box = .ok (box', b)) :
    ∃ can p acc,
      history_loop E box.time_stepper box.time_step_id box.histories true = some can ∧
      gather_requests E box = .ok (p, acc) ∧
      (can = false → box' = box ∧ b = true) ∧
      (can = true → adjust_step E box p acc = .ok (box', b)) := by
  simp only [change_step_size, bind, Except.bind, ASSERT, returned] at h
  split at h
  · cases h
  · split at h
    · cases h
    · rename_i _ _ can hcan
      split at h
      · cases h
      · rename_i _ pr hg
        obtain ⟨p, acc⟩ := pr
        refine ⟨can, p, acc, ?_, hg, ?_, ?_⟩
        · revert hcan
          cases hh : history_loop E box.time_stepper box.time_step_id box.histories true <;>
            simp
        · intro hc
          subst hc
          simp [check_hard_limit] at h
          split at h
          · cases h
          · simp [pure, Except.pure] at h
            exact ⟨h.1.symm, h.2⟩
        · intro hc
          subst hc
          simpa using h

theorem adjust_step_inv {T : Types} (E : Env T) (box box' : DataBox T)
    (p : T.TimeStepRequestProcessor) (acc b : Bool)
    (h : adjust_step E box p acc = .ok (box', b)) :
    ∃ d new_step,
      E.step_size p (E.time_value (E.step_time box.time_step_id))
        (E.delta_value box.time_step) = some d ∧
      ¬ (|d| < box.minimum_time_step) ∧
      E.choose_lts_step_size (E.time_plus (E.step_time box.time_step_id) box.time_step) d
        = some new_step ∧
      ¬ (|E.delta_value new_step| < box.minimum_time_step) ∧
      b = acc ∧
      (acc = true → box' = { box with next_time_step := new_step }) ∧
      (acc = false → ∃ ts nid,
        E.choose_lts_step_size (E.step_time box.time_step_id) d = some ts ∧
        E.next_time_id box.time_stepper box.time_step_id ts = some nid ∧
        box' = { box with next_time_step := new_step, time_step := ts,
                          next_time_step_id := nid }) := by
  unfold adjust_step at h
  cases hd : E.step_size p (E.time_value (E.step_time box.time_step_id))
      (E.delta_value box.time_step) with
  | none => simp [hd, returned, bind, Except.bind] at h
  | some d =>
    by_cases hmin : |d| < box.minimum_time_step
    · simp [hd, returned, bind, Except.bind, hmin, throw, throwThe, MonadExceptOf.throw] at h
    · have hov := not_abs_lt_smallest
        (d / E.delta_value (E.slab_duration (E.delta_slab box.time_step)))
      cases hn : E.choose_lts_step_size
          (E.time_plus (E.step_time box.time_step_id) box.time_step) d with
      | none =>
        simp [hd, returned, bind, Except.bind, hmin, hov, hn, pure, Except.pure] at h
      | some new_step =>
        by_cases hmin2 : |E.delta_value new_step| < box.minimum_time_step
        · simp [hd, returned, bind, Except.bind, hmin, hov, hn, hmin2, pure, Except.pure,
            throw, throwThe, MonadExceptOf.throw] at h
        · refine ⟨d, new_step, rfl, hmin, hn, hmin2, ?_⟩
          cases acc with
          | true =>
            simp only [hd, returned, bind, Except.bind, hmin, hov, hn, hmin2, pure, Except.pure,
              if_false, if_true] at h
            cases hcl : check_hard_limit E box p with
            | error e => simp [hcl] at h
            | ok u =>
              simp only [hcl] at h
              injection h with h
              injection h with h1 h2
              exact ⟨h2.symm, fun _ => h1.symm, fun hc => by cases hc⟩
          | false =>
            simp only [hd, returned, bind, Except.bind, hmin, hov, hn, hmin2, pure, Except.pure,
              if_false, if_true] at h
            cases hts : E.choose_lts_step_size (E.step_time box.time_step_id) d with
            | none => simp [hts] at h
            | some ts =>
              simp only [hts] at h
              cases has : ASSERT E.assertions (E.delta_ne ts box.time_step)
                  Error.assert_not_changed with
              | error e => simp [has] at h
              | ok u =>
                simp only [has] at h
                cases hid : E.next_time_id box.time_stepper box.time_step_id ts with
                | none => simp [hid] at h
                | some nid =>
                  simp only [hid] at h
                  injection h with h
                  injection h with h1 h2
                  exact ⟨h2.symm, fun hc => (by cases hc),
                    fun _ => ⟨ts, nid, rfl, hid, h1.symm⟩⟩


theorem adjust_step_step_choosers {T : Types} (E : Env T) (box : DataBox T)
    (p : T.TimeStepRequestProcessor) (acc : Bool) (cs : List T.StepChooser) :
    adjust_step E { box with step_choosers := cs } p acc =
      (adjust_step E box p acc).map (fun res => ({ res.1 with step_choosers := cs }, res.2)) := by
  simp only [adjust_step, bind, Except.bind, returned, check_hard_limit, ASSERT, pure, Except.pure,
    throw, throwThe, MonadExceptOf.throw]
  cases E.step_size p (E.time_value (E.step_time box.time_step_id))
      (E.delta_value box.time_step) with
  | none => rfl
  | some d =>
    simp only []
    by_cases h1 : |d| < box.minimum_time_step
    · simp [h1, Except.map]
    · simp only [h1, if_false, not_abs_lt_smallest]
      cases E.choose_lts_step_size
          (E.time_plus (E.step_time box.time_step_id) box.time_step) d with
      | none => rfl
      | some ns =>
        simp only []
        by_cases h2 : |E.delta_value ns| < box.minimum_time_step
        · simp [h2, Except.map]
        · simp only [h2, if_false]
          cases acc with
          | true =>
            simp only [if_true]
            cases E.error_on_hard_limit p (E.delta_value box.time_step)
              (E.time_value (E.time_plus (E.step_time box.time_step_id) box.time_step)) <;>
              simp [Except.map]
          | false =>
            simp only [Bool.false_eq_true, if_false]
            cases E.choose_lts_step_size (E.step_time box.time_step_id) d with
            | none => rfl
            | some ts =>
              simp only []
              cases (E.assertions && !E.delta_ne ts box.time_step)
              · cases E.next_time_id box.time_stepper box.time_step_id ts with
                | none => rfl
                | some nid => simp [Except.map]
              · simp [Except.map]

theorem history_loop_desired_step {T : Types} (E : Env T)
    (f : T.StepChooser → Double → DataBox T → Option (TimeStepRequest × Bool))
    (st : T.LtsTimeStepper) (id : T.TimeStepId) (hs : List T.History) :
    ∀ acc, history_loop { E with desired_step := f } st id hs acc =
      history_loop E st id hs acc := by
  induction hs with
  | nil => intro acc; rfl
  | cons h t ih =>
    intro acc
    simp only [history_loop, ih]

theorem gather_requests_fixed {T : Types} (E : Env T) (box : DataBox T) (r : Nat)
    (hfixed : box.fixed_lts_ratio = some (some r)) :
    gather_requests E box =
      (if E.assertions && !(popcount r == 1) then .error .assert_fixed_lts_ratio
       else match E.process (E.processor (E.time_runs_forward box.time_step_id))
          { size_goal := some (E.delta_value
              (E.delta_div (E.slab_duration (E.delta_slab box.time_step)) r)),
            size := none, end_ := none, size_hard_limit := none, end_hard_limit := none } with
        | some p => .ok (p, true)
        | none => .error .callee) := by
  simp only [gather_requests, hfixed, Option.join, Option.bind, id, ASSERT, bind, Except.bind,
    returned, pure, Except.pure]
  cases (E.assertions && !(popcount r == 1)) with
  | true => simp
  | false =>
    simp only [Bool.false_eq_true, if_false]
    cases E.process (E.processor (E.time_runs_forward box.time_step_id))
      { size_goal := some (E.delta_value
          (E.delta_div (E.slab_duration (E.delta_slab box.time_step)) r)),
        size := none, end_ := none, size_hard_limit := none, end_hard_limit := none } <;> rfl

theorem gather_requests_fixed_flag {T : Types} (E : Env T) (box : DataBox T) (r : Nat)
    (hfixed : box.fixed_lts_ratio = some (some r)) (p : T.TimeStepRequestProcessor) (acc : Bool)
    (h : gather_requests E box = .ok (p, acc)) : acc = true := by
  rw [gather_requests_fixed E box r hfixed] at h
  split at h
  · cases h
  · split at h
    · injection h with h
      injection h with h1 h2
      exact h2.symm
    · cases h

/-- What `change_step_size` leaves alone when it returns: every item except
`Tags::Next<Tags::TimeStep>`, `Tags::TimeStep` and `Tags::Next<Tags::TimeStepId>`;
the last two are written only when the step is rejected. -/
theorem change_step_size_frame {T : Types} (E : Env T) (box box' : DataBox T) (b : Bool)
    (h : change_step_size E box = .ok (box', b)) :
    box'.time_stepper = box.time_stepper ∧ box'.step_choosers = box.step_choosers ∧
    box'.time_step_id = box.time_step_id ∧ box'.histories = box.histories ∧
    box'.fixed_lts_ratio = box.fixed_lts_ratio ∧
    box'.minimum_time_step = box.minimum_time_step ∧
    box'.adaptive_stepping_diagnostics = box.adaptive_stepping_diagnostics ∧
    box'.other = box.other ∧
    (b = true → box'.time_step = box.time_step ∧
      box'.next_time_step_id = box.next_time_step_id) := by
  obtain ⟨can, p, acc, _, _, hf, ht⟩ := change_step_size_inv E box box' b h
  cases can with
  | false =>
    obtain ⟨h1, _⟩ := hf rfl
    subst h1
    simp
  | true =>
    obtain ⟨d, ns, _, _, _, _, hb, hacc, hrej⟩ := adjust_step_inv E box box' p acc b (ht rfl)
    cases acc with
    | true =>
      have := hacc rfl
      subst this
      simp
    | false =>
      obtain ⟨ts, nid, _, _, hbox⟩ := hrej rfl
      subst hbox
      simp [hb]

theorem adjust_step_ne_overflow {T : Types} (E : Env T) (box : DataBox T)
    (p : T.TimeStepRequestProcessor) (acc : Bool) :
    adjust_step E box p acc ≠ .error .overflow := by
  simp only [adjust_step, bind, Except.bind, returned, check_hard_limit, ASSERT, pure, Except.pure,
    throw, throwThe, MonadExceptOf.throw]
  cases E.step_size p (E.time_value (E.step_time box.time_step_id))
      (E.delta_value box.time_step) with
  | none => simp
  | some d =>
    simp only []
    by_cases h1 : |d| < box.minimum_time_step
    · simp [h1]
    · simp only [h1, if_false, not_abs_lt_smallest]
      cases E.choose_lts_step_size
          (E.time_plus (E.step_time box.time_step_id) box.time_step) d with
      | none => simp
      | some ns =>
        simp only []
        by_cases h2 : |E.delta_value ns| < box.minimum_time_step
        · simp [h2]
        · simp only [h2, if_false]
          cases acc with
          | true =>
            simp only [if_true]
            cases E.error_on_hard_limit p (E.delta_value box.time_step)
              (E.time_value (E.time_plus (E.step_time box.time_step_id) box.time_step)) <;>
              simp
          | false =>
            simp only [Bool.false_eq_true, if_false]
            cases E.choose_lts_step_size (E.step_time box.time_step_id) d with
            | none => simp
            | some ts =>
              simp only []
              cases (E.assertions && !E.delta_ne ts box.time_step)
              · cases E.next_time_id box.time_stepper box.time_step_id ts with
                | none => simp
                | some nid => simp
              · simp

theorem gather_requests_ne_overflow {T : Types} (E : Env T) (box : DataBox T) :
    gather_requests E box ≠ .error .overflow := by
  simp only [gather_requests, bind, Except.bind, returned, ASSERT, pure, Except.pure]
  cases box.fixed_lts_ratio.join with
  | none =>
    simp only []
    cases step_chooser_loop E box (E.delta_value box.time_step) box.step_choosers
      (E.processor (E.time_runs_forward box.time_step_id)) true <;> simp
  | some r =>
    simp only []
    cases (E.assertions && !(popcount r == 1)) with
    | true => simp
    | false =>
      simp only [Bool.false_eq_true, if_false]
      cases E.process (E.processor (E.time_runs_forward box.time_step_id))
        { size_goal := some (E.delta_value
            (E.delta_div (E.slab_duration (E.delta_slab box.time_step)) r)) } <;> simp

theorem change_step_size_ne_overflow {T : Types} (E : Env T) (box : DataBox T) :
    change_step_size E box ≠ .error .overflow := by
  have h1 := gather_requests_ne_overflow E box
  simp only [change_step_size, bind, Except.bind, returned, ASSERT, check_hard_limit, pure,
    Except.pure]
  cases (E.assertions && !(E.substep box.time_step_id == 0)) with
  | true => simp
  | false =>
    simp only [Bool.false_eq_true, if_false]
    cases history_loop E box.time_stepper box.time_step_id box.histories true with
    | none => simp
    | some can =>
      simp only []
      cases hg : gather_requests E box with
      | error e =>
        simp only []
        intro h
        injection h with h
        subst h
        exact h1 hg
      | ok pr =>
        simp only []
        cases can with
        | false =>
          simp only [Bool.not_false, if_true]
          cases E.error_on_hard_limit pr.1 (E.delta_value box.time_step)
            (E.time_value (E.time_plus (E.step_time box.time_step_id) box.time_step)) <;> simp
        | true =>
          simp only [Bool.not_true, Bool.false_eq_true, if_false]
          exact adjust_step_ne_overflow E box pr.1 pr.2

/-! ## Evaluation on the concrete environment -/

theorem Sample.eval_rejecting :
    change_step_size Sample.env Sample.rejecting_box =
      .ok ({ Sample.rejecting_box with
              next_time_step := Sample.step 3, time_step := Sample.step 3,
              next_time_step_id := Sample.id_at 3 }, false) := by
  norm_num [change_step_size, adjust_step, gather_requests, step_chooser_loop, history_loop,
    check_hard_limit, ASSERT, returned, Sample.env, Sample.box, Sample.chooser, Sample.choose,
    Sample.first_power, Sample.process, Sample.unit_slab, Sample.rejecting_box, Sample.step,
    Sample.id_at, smallest_relative_step_size_eq, abs_lt, bind, Except.bind, pure, Except.pure]

theorem Sample.eval_accepting :
    change_step_size Sample.env Sample.accepting_box =
      .ok ({ Sample.accepting_box with next_time_step := Sample.step 3 }, true) := by
  norm_num [change_step_size, adjust_step, gather_requests, step_chooser_loop, history_loop,
    check_hard_limit, ASSERT, returned, Sample.env, Sample.box, Sample.chooser, Sample.choose,
    Sample.first_power, Sample.process, Sample.unit_slab, Sample.accepting_box, Sample.step,
    smallest_relative_step_size_eq, abs_lt, bind, Except.bind, pure, Except.pure]

theorem Sample.eval_fixed :
    change_step_size Sample.env Sample.fixed_box =
      .ok ({ Sample.fixed_box with next_time_step := Sample.step 1 }, true) := by
  have hp : popcount 2 = 1 := by decide
  norm_num [change_step_size, adjust_step, gather_requests, step_chooser_loop, history_loop,
    check_hard_limit, ASSERT, returned, Sample.env, Sample.box, Sample.chooser, Sample.choose,
    Sample.first_power, Sample.process, Sample.unit_slab, Sample.fixed_box, Sample.step, hp,
    smallest_relative_step_size_eq, abs_lt, bind, Except.bind, pure, Except.pure]

theorem Sample.eval_tiny :
    change_step_size Sample.env Sample.tiny_box =
      .ok ({ Sample.tiny_box with next_time_step := Sample.step 32 }, true) := by
  norm_num [change_step_size, adjust_step, gather_requests, step_chooser_loop, history_loop,
    check_hard_limit, ASSERT, returned, Sample.env, Sample.box, Sample.chooser, Sample.choose,
    Sample.first_power, Sample.process, Sample.unit_slab, Sample.tiny_box, Sample.step,
    smallest_relative_step_size_eq, abs_lt, bind, Except.bind, pure, Except.pure]

/-- C1: for a DataBox without a `FixedLtsRatio` value (the tag absent, or present
and empty) in which the time stepper allows a change of step size for every
history, whenever `change_step_size` returns (no error is raised), every step
chooser of `Tags::StepChoosers` has been asked, with the current step size and
the box, and the returned `bool` is the conjunction of the accepted flags they
returned: `true` for an empty list of choosers, `false` as soon as one of them
rejects. -/
theorem change_step_size_returns_acceptance {T : Types} (E : Env T) (box box' : DataBox T)
    (b : Bool)
    (hfixed : box.fixed_lts_ratio.join = none)
    (hcan : ∀ h ∈ box.histories,
      E.can_change_step_size box.time_stepper box.time_step_id h = some true)
    (hret : change_step_size E box = .ok (box', b)) :
    ∃ results : List (TimeStepRequest × Bool),
      List.Forall₂ (fun c r => E.desired_step c (E.delta_value box.time_step) box = some r)
        box.step_choosers results ∧
      b = results.all (fun r => r.2) ∧
      (box.step_choosers = [] → b = true) ∧
      ((∃ r ∈ results, r.2 = false) → b = false) := by
  obtain ⟨can, p, acc, hloop, hg, _, ht⟩ := change_step_size_inv E box box' b hret
  rw [history_loop_all_true E _ _ _ hcan] at hloop
  injection hloop with hloop
  obtain ⟨_, _, _, _, _, _, hb, _, _⟩ := adjust_step_inv E box box' p acc b (ht hloop.symm)
  simp only [gather_requests, hfixed, returned] at hg
  split at hg
  · rename_i pr hpr
    injection hg with hg
    subst hg
    obtain ⟨results, hf, hacc⟩ := step_chooser_loop_flags E box _ _ _ _ _ _ hpr
    simp only [Bool.true_and] at hacc
    refine ⟨results, hf, hb.trans hacc, ?_, ?_⟩
    · intro hnil
      rw [hnil] at hf
      cases hf
      simp [hb, hacc]
    · rintro ⟨r, hr, hr2⟩
      rw [hb, hacc]
      apply Bool.eq_false_iff.mpr
      intro hall
      have := List.all_eq_true.mp hall r hr
      simp [hr2] at this
  · cases hg

theorem change_step_size_returns_acceptance_witness :
    (Sample.rejecting_box.fixed_lts_ratio.join = none ∧
     ∀ h ∈ Sample.rejecting_box.histories,
      Sample.env.can_change_step_size Sample.rejecting_box.time_stepper
        Sample.rejecting_box.time_step_id h = some true) ∧
    ∃ results : List (TimeStepRequest × Bool),
      List.Forall₂ (fun c r => Sample.env.desired_step c
          (Sample.env.delta_value Sample.rejecting_box.time_step) Sample.rejecting_box = some r)
        Sample.rejecting_box.step_choosers results ∧
      false = results.all (fun r => r.2) ∧
      (Sample.rejecting_box.step_choosers = [] → false = true) ∧
      ((∃ r ∈ results, r.2 = false) → false = false) :=
  ⟨⟨rfl, by simp [Sample.rejecting_box, Sample.box, Sample.env]⟩,
   change_step_size_returns_acceptance Sample.env Sample.rejecting_box _ false rfl
    (by simp [Sample.rejecting_box, Sample.box, Sample.env]) Sample.eval_rejecting⟩

/-- C2: when `Tags::FixedLtsRatio` is present and holds a value, every return of
`change_step_size` returns `true` and leaves `Tags::TimeStep` and
`Tags::Next<Tags::TimeStepId>` as they were. -/
theorem fixed_lts_ratio_never_rejects {T : Types} (E : Env T) (box box' : DataBox T)
    (b : Bool) (r : Nat)
    (hfixed : box.fixed_lts_ratio = some (some r))
    (hret : change_step_size E box = .ok (box', b)) :
    b = true ∧ box'.time_step = box.time_step ∧
      box'.next_time_step_id = box.next_time_step_id := by
  have hb : b = true := by
    obtain ⟨can, p, acc, _, hg, hf, ht⟩ := change_step_size_inv E box box' b hret
    cases can with
    | false => exact (hf rfl).2
    | true =>
      obtain ⟨_, _, _, _, _, _, hb, _, _⟩ := adjust_step_inv E box box' p acc b (ht rfl)
      rw [hb]
      exact gather_requests_fixed_flag E box r hfixed p acc hg
  exact ⟨hb, (change_step_size_frame E box box' b hret).2.2.2.2.2.2.2.2 hb⟩

theorem fixed_lts_ratio_never_rejects_witness :
    Sample.fixed_box.fixed_lts_ratio = some (some 2) ∧
    change_step_size Sample.env Sample.fixed_box =
      .ok ({ Sample.fixed_box with next_time_step := Sample.step 1 }, true) ∧
    (true = true ∧
      ({ Sample.fixed_box with next_time_step := Sample.step 1 } : DataBox Sample.types).time_step
        = Sample.fixed_box.time_step ∧
      ({ Sample.fixed_box with next_time_step := Sample.step 1 } :
        DataBox Sample.types).next_time_step_id = Sample.fixed_box.next_time_step_id) :=
  ⟨rfl, Sample.eval_fixed,
   fixed_lts_ratio_never_rejects Sample.env Sample.fixed_box _ true 2 rfl Sample.eval_fixed⟩

/-- C3: when `Tags::FixedLtsRatio` holds a value `r`,
(1) the requests gathered by `change_step_size` are the result of processing, on a
fresh processor, the single request whose `size_goal` is the value of the slab
duration divided by `r` and whose other fields are all empty, with the step
marked accepted;
(2) no step chooser is called: the outcome is the same whatever the step
choosers would do, even if none of them would return;
(3) for two DataBoxes that differ only in the contents of `Tags::StepChoosers`,
`change_step_size` stops with the same error or returns the same `bool` with
final DataBoxes that again differ only in `Tags::StepChoosers`, which each box
keeps. -/
theorem fixed_lts_ratio_ignores_step_choosers {T : Types} (E : Env T) (box : DataBox T)
    (r : Nat) (hfixed : box.fixed_lts_ratio = some (some r)) :
    (∀ p acc, gather_requests E box = .ok (p, acc) ↔
      ((E.assertions = true → popcount r = 1) ∧
       E.process (E.processor (E.time_runs_forward box.time_step_id))
        { size_goal := some (E.delta_value
            (E.delta_div (E.slab_duration (E.delta_slab box.time_step)) r)),
          size := none, end_ := none, size_hard_limit := none, end_hard_limit := none }
        = some p ∧ acc = true)) ∧
    (∀ f, change_step_size { E with desired_step := f } box = change_step_size E box) ∧
    (∀ cs, change_step_size E { box with step_choosers := cs } =
      (change_step_size E box).map (fun res => ({ res.1 with step_choosers := cs }, res.2))) := by
  refine ⟨?_, ?_, ?_⟩
  · intro p acc
    rw [gather_requests_fixed E box r hfixed]
    cases ha : E.assertions <;> cases hp : (popcount r == 1) <;>
      cases hq : E.process (E.processor (E.time_runs_forward box.time_step_id))
        { size_goal := some (E.delta_value
            (E.delta_div (E.slab_duration (E.delta_slab box.time_step)) r)),
          size := none, end_ := none, size_hard_limit := none, end_hard_limit := none } <;>
      simp_all
  · intro f
    have hg : gather_requests { E with desired_step := f } box = gather_requests E box := by
      rw [gather_requests_fixed E box r hfixed,
        gather_requests_fixed { E with desired_step := f } box r hfixed]
    simp only [change_step_size, hg, history_loop_desired_step]
    rfl
  · intro cs
    have hg : gather_requests E { box with step_choosers := cs } = gather_requests E box := by
      rw [gather_requests_fixed E box r hfixed,
        gather_requests_fixed E { box with step_choosers := cs } r hfixed]
    simp only [change_step_size, hg, bind, Except.bind, ASSERT, returned, check_hard_limit,
      pure, Except.pure, adjust_step_step_choosers]
    cases (E.assertions && !(E.substep box.time_step_id == 0)) with
    | true => simp [Except.map]
    | false =>
      simp only [Bool.false_eq_true, if_false]
      cases history_loop E box.time_stepper box.time_step_id box.histories true with
      | none => rfl
      | some can =>
        simp only []
        cases gather_requests E box with
        | error e => rfl
        | ok pr =>
          simp only []
          cases can with
          | false =>
            simp only [Bool.not_false, if_true]
            cases E.error_on_hard_limit pr.1 (E.delta_value box.time_step)
              (E.time_value (E.time_plus (E.step_time box.time_step_id) box.time_step)) <;>
              simp [Except.map]
          | true => simp

theorem fixed_lts_ratio_ignores_step_choosers_witness :
    Sample.fixed_box.fixed_lts_ratio = some (some 2) ∧
    change_step_size Sample.env { Sample.fixed_box with step_choosers := [] } =
      .ok ({ Sample.fixed_box with next_time_step := Sample.step 1, step_choosers := [] },
        true) :=
  ⟨rfl, by
    rw [(fixed_lts_ratio_ignores_step_choosers Sample.env Sample.fixed_box 2 rfl).2.2 [],
      Sample.eval_fixed]
    rfl⟩

/-- C4 (the code at the failing input): the constant of line 151 is the negative
number `-(2 ^ -31)`, because `1 << 31` wraps to `-2 ^ 31` in 32-bit `int`
arithmetic; so the comparison of line 152 never holds and no input makes
`change_step_size` stop with the integer-overflow error.  On `Sample.tiny_box`,
where the desired step `2 ^ -32` is above the `MinimumTimeStep` and is less than
`2 ^ -31` of the slab, the function chooses the step `2 ^ -32` of the slab and
returns `true`. -/
theorem overflow_guard_never_fires :
    shl_int32 1 31 = -2 ^ 31 ∧
    smallest_relative_step_size = -(1 / 2 ^ 31) ∧
    (∀ (T : Types) (E : Env T) (box : DataBox T), change_step_size E box ≠ .error .overflow) ∧
    gather_requests Sample.env Sample.tiny_box = .ok (some (1 / 2 ^ 32), true) ∧
    ¬ (|(1 / 2 ^ 32 : Double)| < Sample.tiny_box.minimum_time_step) ∧
    |(1 / 2 ^ 32 : Double) / Sample.env.delta_value
        (Sample.env.slab_duration (Sample.env.delta_slab Sample.tiny_box.time_step))|
      < 1 / 2 ^ 31 ∧
    change_step_size Sample.env Sample.tiny_box =
      .ok ({ Sample.tiny_box with next_time_step := Sample.step 32 }, true) := by
  refine ⟨by decide, smallest_relative_step_size_eq,
    fun T E box => change_step_size_ne_overflow E box, ?_, ?_, ?_, Sample.eval_tiny⟩
  · norm_num [gather_requests, step_chooser_loop, returned, Sample.env, Sample.box,
      Sample.chooser, Sample.process, Sample.tiny_box]
  · norm_num [Sample.tiny_box, Sample.box, abs_lt]
  · norm_num [Sample.env, Sample.tiny_box, Sample.box, Sample.unit_slab, abs_lt]

/-- What the action leaves alone when it returns: every item except
`Tags::Next<Tags::TimeStep>`, `Tags::TimeStep`, `Tags::Next<Tags::TimeStepId>` and
`Tags::AdaptiveSteppingDiagnostics`. -/
theorem apply_frame {T : Types} (E : Env T) (action_list : ActionList) (box box' : DataBox T)
    (r : AlgorithmExecution × Option Nat)
    (h : apply E action_list box = .ok (box', r)) :
    box'.time_stepper = box.time_stepper ∧ box'.step_choosers = box.step_choosers ∧
    box'.time_step_id = box.time_step_id ∧ box'.histories = box.histories ∧
    box'.fixed_lts_ratio = box.fixed_lts_ratio ∧
    box'.minimum_time_step = box.minimum_time_step ∧ box'.other = box.other := by
  unfold apply at h
  split at h
  · injection h with h
    injection h with h1 h2
    subst h1
    simp
  · split at h
    · cases h
    · rename_i box1 ok hret
      obtain ⟨f1, f2, f3, f4, f5, f6, _, f8, _⟩ := change_step_size_frame E box box1 ok hret
      split at h
      · injection h with h
        injection h with h1 h2
        subst h1
        exact ⟨f1, f2, f3, f4, f5, f6, f8⟩
      · injection h with h
        injection h with h1 h2
        subst h1
        exact ⟨f1, f2, f3, f4, f5, f6, f8⟩

/-- C6 (the code at the failing input): on `Sample.accepting_box` the action
returns with `Tags::Next<Tags::TimeStep>` changed from a quarter to an eighth of
the slab, and on `Sample.rejecting_box` it returns with
`Tags::AdaptiveSteppingDiagnostics` changed as well; neither item is
`Tags::Next<Tags::TimeStepId>` or `Tags::TimeStep`. -/
theorem apply_modifies_more_items :
    apply Sample.env Sample.action_list Sample.accepting_box =
      .ok ({ Sample.accepting_box with next_time_step := Sample.step 3 }, .Continue, none) ∧
    Sample.accepting_box.next_time_step = Sample.step 2 ∧
    Sample.step 3 ≠ Sample.step 2 ∧
    apply Sample.env Sample.action_list Sample.rejecting_box =
      .ok ({ Sample.rejecting_box with
              next_time_step := Sample.step 3, time_step := Sample.step 3,
              next_time_step_id := Sample.id_at 3,
              adaptive_stepping_diagnostics :=
                { number_of_slabs := 3, number_of_slab_size_changes := 0,
                  number_of_steps := 12, number_of_step_fraction_changes := 2,
                  number_of_step_rejections := 2 } }, .Continue, some 2) ∧
    Sample.rejecting_box.next_time_step = Sample.step 2 ∧
    Sample.rejecting_box.adaptive_stepping_diagnostics.number_of_step_rejections = 1 := by
  refine ⟨?_, ?_, ?_, ?_, ?_, rfl⟩
  · have hs : Sample.env.substep Sample.accepting_box.time_step_id = 0 := rfl
    simp only [apply, hs, Sample.eval_accepting]
    rfl
  · norm_num [Sample.accepting_box, Sample.box, Sample.step]
  · norm_num [Sample.step]
  · have hs : Sample.env.substep Sample.rejecting_box.time_step_id = 0 := rfl
    simp only [apply, hs, Sample.eval_rejecting]
    rfl
  · norm_num [Sample.rejecting_box, Sample.box, Sample.step]

/-- C7: at substep 0, when `change_step_size` returns `true` the action returns
`Continue` with no jump target and the DataBox left by `change_step_size`, in
which `Tags::AdaptiveSteppingDiagnostics` is as before the action; when it returns
`false` the action adds exactly one to `number_of_step_rejections`, changes no
other counter and nothing else in the box left by `change_step_size`, and returns
`Continue` with the jump target `index_of_UpdateU`, which is an index of the
action list holding an `UpdateU`, no smaller index holding one. -/
theorem apply_at_substep_zero {T : Types} (E : Env T) (action_list : ActionList)
    (box box1 : DataBox T) (step_successful : Bool)
    (hsub : E.substep box.time_step_id = 0)
    (hret : change_step_size E box = .ok (box1, step_successful)) :
    (step_successful = true →
      apply E action_list box = .ok (box1, .Continue, none) ∧
      box1.adaptive_stepping_diagnostics = box.adaptive_stepping_diagnostics) ∧
    (step_successful = false →
      ∃ diags : AdaptiveSteppingDiagnostics,
        apply E action_list box =
          .ok ({ box1 with adaptive_stepping_diagnostics := diags }, .Continue,
            some (index_of_UpdateU action_list)) ∧
        diags.number_of_step_rejections =
          box.adaptive_stepping_diagnostics.number_of_step_rejections + 1 ∧
        diags.number_of_slabs = box.adaptive_stepping_diagnostics.number_of_slabs ∧
        diags.number_of_slab_size_changes =
          box.adaptive_stepping_diagnostics.number_of_slab_size_changes ∧
        diags.number_of_steps = box.adaptive_stepping_diagnostics.number_of_steps ∧
        diags.number_of_step_fraction_changes =
          box.adaptive_stepping_diagnostics.number_of_step_fraction_changes ∧
        (∃ a, action_list.actions[index_of_UpdateU action_list]? = some a ∧
          is_UpdateU a = true) ∧
        (∀ j a, j < index_of_UpdateU action_list → action_list.actions[j]? = some a →
          is_UpdateU a = false)) := by
  have hd := (change_step_size_frame E box box1 step_successful hret).2.2.2.2.2.2.1
  constructor
  · intro hs
    subst hs
    simp [apply, hsub, hret, hd]
  · intro hs
    subst hs
    refine ⟨{ box1.adaptive_stepping_diagnostics with
      number_of_step_rejections :=
        box1.adaptive_stepping_diagnostics.number_of_step_rejections + 1 }, ?_, ?_, ?_, ?_, ?_,
      ?_, ?_, ?_⟩
    · simp [apply, hsub, hret]
    · simp [hd]
    · simp [hd]
    · simp [hd]
    · simp [hd]
    · simp [hd]
    · have hex : ∃ x ∈ action_list.actions, is_UpdateU x = true := by
        simpa [List.any_eq_true] using action_list.has_UpdateU
      have hlt : index_of_UpdateU action_list < action_list.actions.length :=
        List.findIdx_lt_length_of_exists hex
      refine ⟨action_list.actions[index_of_UpdateU action_list], ?_, ?_⟩
      · exact List.getElem?_eq_getElem hlt
      · exact List.findIdx_getElem
    · intro j a hj ha
      have hlt : j < action_list.actions.length := by
        have := (List.getElem?_eq_some.mp ha).1
        exact this
      have hn := List.not_of_lt_findIdx hj
      have hja : action_list.actions[j] = a := by
        have := List.getElem?_eq_getElem hlt
        rw [this] at ha
        exact Option.some.inj ha
      rw [hja] at hn
      simpa using hn

theorem apply_at_substep_zero_witness :
    Sample.env.substep Sample.rejecting_box.time_step_id = 0 ∧
    ∃ diags : AdaptiveSteppingDiagnostics,
      apply Sample.env Sample.action_list Sample.rejecting_box =
        .ok ({ Sample.rejecting_box with
                next_time_step := Sample.step 3, time_step := Sample.step 3,
                next_time_step_id := Sample.id_at 3,
                adaptive_stepping_diagnostics := diags }, .Continue, some 2) ∧
      diags.number_of_step_rejections = 2 :=
  ⟨rfl, by
    obtain ⟨diags, h1, h2, _⟩ := (apply_at_substep_zero Sample.env Sample.action_list
      Sample.rejecting_box _ false rfl Sample.eval_rejecting).2 rfl
    exact ⟨diags, h1, h2⟩⟩

/-- C8: when the `substep()` of `Tags::TimeStepId` is not 0, the action returns
`Continue` with no jump target and the DataBox it was given; this does not depend
on what the step choosers would do, none being called; and `change_step_size`
itself, with assertions compiled in, stops on its assertion `substep() == 0`. -/
theorem apply_on_substep {T : Types} (E : Env T) (action_list : ActionList) (box : DataBox T)
    (hsub : E.substep box.time_step_id ≠ 0) :
    apply E action_list box = .ok (box, .Continue, none) ∧
    (∀ f, apply { E with desired_step := f } action_list box = .ok (box, .Continue, none)) ∧
    (E.assertions = true → change_step_size E box = .error .assert_substep) := by
  refine ⟨?_, ?_, ?_⟩
  · simp [apply, hsub]
  · intro f
    simp [apply, hsub]
  · intro ha
    simp [change_step_size, ASSERT, ha, hsub, bind, Except.bind]

theorem apply_on_substep_witness :
    Sample.env.substep Sample.substep_box.time_step_id ≠ 0 ∧
    apply Sample.env Sample.action_list Sample.substep_box =
      .ok (Sample.substep_box, .Continue, none) ∧
    change_step_size Sample.env Sample.substep_box = .error .assert_substep :=
  ⟨by decide,
   (apply_on_substep Sample.env Sample.action_list Sample.substep_box (by decide)).1,
   (apply_on_substep Sample.env Sample.action_list Sample.substep_box (by decide)).2.2 rfl⟩

/-- Away from NaN the two comparisons of `time_is_outside_range` are the negation
of `first <= time and time <= last`. -/
theorem Binary64.outside_eq_not_between (first time last : Binary64)
    (hf : first ≠ .nan) (ht : time ≠ .nan) (hl : last ≠ .nan) :
    (Binary64.lt time first || Binary64.gt time last) =
      !(Binary64.le first time && Binary64.le time last) := by
  have key : ∀ a b : ℚ, decide (a < b) = !decide (b ≤ a) := by
    intro a b
    by_cases h : a < b
    · simp [h, not_le.mpr h]
    · simp [h, not_lt.mp h]
  cases first <;> cases time <;> cases last <;>
    simp_all only [Binary64.lt, Binary64.gt, Binary64.le, ne_eq, not_true_eq_false,
      not_false_eq_true, Bool.or_false, Bool.false_or, Bool.and_true, Bool.true_and,
      Bool.not_and, Bool.or_true, Bool.true_or, Bool.and_false, Bool.false_and, Bool.not_true,
      Bool.not_false, reduceCtorEq]

/-- For a non-empty time buffer whose first and last entries are not NaN and a
time that is not a NaN, both `time_is_outside_range` overrides return a value, and
that value is `false` exactly when the time lies between the first and the last
entry of the buffer, both end points included, and `true` otherwise. -/
theorem time_is_outside_range_without_nan (time_buffer_ : List Binary64) (time : Binary64)
    (hne : time_buffer_ ≠ [])
    (hf : time_buffer_.head hne ≠ .nan) (ht : time ≠ .nan)
    (hl : time_buffer_.getLast hne ≠ .nan) :
    BondiWorldtubeH5BufferUpdater.time_is_outside_range time_buffer_ time =
        some (!(Binary64.le (time_buffer_.head hne) time &&
                Binary64.le time (time_buffer_.getLast hne))) ∧
    KleinGordonWorldtubeH5BufferUpdater.time_is_outside_range time_buffer_ time =
        some (!(Binary64.le (time_buffer_.head hne) time &&
                Binary64.le time (time_buffer_.getLast hne))) := by
  have h0 : time_buffer_[0]? = some (time_buffer_.head hne) := by
    cases time_buffer_ with
    | nil => exact absurd rfl hne
    | cons a t => simp
  have h1 : time_buffer_[time_buffer_.length - 1]? = some (time_buffer_.getLast hne) := by
    rw [List.getLast_eq_getElem]
    exact List.getElem?_eq_getElem _
  have hb := Binary64.outside_eq_not_between _ time _ hf ht hl
  constructor
  · simp only [BondiWorldtubeH5BufferUpdater.time_is_outside_range, h0, h1, bind, Option.bind,
      pure, hb]
  · simp only [KleinGordonWorldtubeH5BufferUpdater.time_is_outside_range, h0, h1, bind,
      Option.bind, pure, hb]

theorem time_is_outside_range_without_nan_witness :
    BondiWorldtubeH5BufferUpdater.time_is_outside_range
      [.finite 1, .finite 2, .finite 5] (.finite 5) = some false ∧
    KleinGordonWorldtubeH5BufferUpdater.time_is_outside_range
      [.finite 1, .finite 2, .finite 5] .pos_inf = some true :=
  ⟨by simpa [Binary64.le] using (time_is_outside_range_without_nan
      [.finite 1, .finite 2, .finite 5] (.finite 5) (by decide) (by decide) (by decide)
      (by decide)).1,
   by simpa [Binary64.le] using (time_is_outside_range_without_nan
      [.finite 1, .finite 2, .finite 5] .pos_inf (by decide) (by decide) (by decide)
      (by decide)).2⟩

/-- C9 (the code at the failing input): on the time buffer 1, 2, 5 and a time
that is a NaN, both `time_is_outside_range` overrides return `false`, although
the time is not between the first and the last entry: neither `1 <= time` nor
`time <= 5` holds.  The same happens for the time 2 when the last entry of the
buffer is a NaN. -/
theorem time_is_outside_range_nan :
    BondiWorldtubeH5BufferUpdater.time_is_outside_range
      [.finite 1, .finite 2, .finite 5] .nan = some false ∧
    KleinGordonWorldtubeH5BufferUpdater.time_is_outside_range
      [.finite 1, .finite 2, .finite 5] .nan = some false ∧
    Binary64.le (.finite 1) .nan = false ∧
    Binary64.le .nan (.finite 5) = false ∧
    BondiWorldtubeH5BufferUpdater.time_is_outside_range
      [.finite 1, .finite 2, .nan] (.finite 2) = some false ∧
    KleinGordonWorldtubeH5BufferUpdater.time_is_outside_range
      [.finite 1, .finite 2, .nan] (.finite 2) = some false ∧
    Binary64.le (.finite 2) .nan = false := by
  refine ⟨?_, ?_, rfl, rfl, ?_, ?_, rfl⟩ <;>
    simp [BondiWorldtubeH5BufferUpdater.time_is_outside_range,
      KleinGordonWorldtubeH5BufferUpdater.time_is_outside_range, Binary64.lt, Binary64.gt]

end Spectre
